import Mathlib

/-!
Verification of the zk-sudoku-prover repository: a shallow embedding of the
Sudoku data model (src/sodoku), the colouring-graph construction
(src/graph/mod.rs), the commitment scheme (src/crypto/commitment.rs) and the
interactive zero-knowledge protocol (src/zkproof), together with theorems
settling the specification's claims about them.

Machine integers (usize, u8) are embedded as Nat; byte strings as List Nat;
Rust Result as Except; Rust panics as Option (none = panic); the f64
arithmetic of the confidence calculator as real arithmetic; HashMaps keyed
by node indices as functions Nat -> Option _; the HashMap from edge index to
endpoint pair as positional lookup in the graph's edge list (the edge id of
petgraph IS the position of the edge in insertion order). Randomness (the
32-byte nonces, the colour permutation, the verifier's sampled edge) is
passed in as explicit parameters.
-/

namespace ZkSudoku

/-- src/sodoku/value.rs: enum Value, the nine Sudoku symbols. -/
inductive Value where
  | One | Two | Three | Four | Five | Six | Seven | Eight | Nine
  deriving DecidableEq, Repr, Fintype

namespace Value

/-- src/sodoku/value.rs: Value::to_numeric, the 1..9 view. -/
def to_numeric : Value → Nat
  | One => 1 | Two => 2 | Three => 3 | Four => 4 | Five => 5
  | Six => 6 | Seven => 7 | Eight => 8 | Nine => 9

/-- src/sodoku/value.rs: Value::to_index, the 0..8 view. -/
def to_index : Value → Nat
  | One => 0 | Two => 1 | Three => 2 | Four => 3 | Five => 4
  | Six => 5 | Seven => 6 | Eight => 7 | Nine => 8

/-- src/sodoku/value.rs: Value::from_index; the panic on indices >= 9 is
embedded as none. -/
def from_index : Nat → Option Value
  | 0 => some One | 1 => some Two | 2 => some Three | 3 => some Four
  | 4 => some Five | 5 => some Six | 6 => some Seven | 7 => some Eight
  | 8 => some Nine | _ => none

/-- src/sodoku/value.rs: Value::ALL_VALUES. -/
def ALL_VALUES : List Value :=
  [One, Two, Three, Four, Five, Six, Seven, Eight, Nine]

end Value

/-- Modelled from the spec: the `Cell` type used by src/sodoku/grid.rs,
src/sodoku/set.rs and src/graph/mod.rs (tagged variant with `Empty`,
`Hint(Value)` and `Guess(Value)`, and a `value()` accessor) is not among the
provided sources; src/sodoku/cell.rs holds an older variant without the
Hint/Guess distinction that the graph builder pattern-matches on. Spec 3:
"Cell - tagged variant: Empty, Hint(Value) (given clue, immutable part of
puzzle), or Guess(Value) (prover-supplied solution)." -/
inductive Cell where
  | Empty
  | Hint (v : Value)
  | Guess (v : Value)
  deriving DecidableEq, Repr

namespace Cell

/-- Modelled from the spec: `Cell::value()` returns the carried Value of a
Hint or Guess and nothing for Empty (callers unwrap it; spec 7 names the
`ValueNotFound` failure for "cell expected to carry a value carries none"). -/
def value : Cell → Option Value
  | Empty => none
  | Hint v => some v
  | Guess v => some v

/-- src/sodoku/cell.rs: Cell::is_empty. -/
def is_empty : Cell → Bool
  | Empty => true
  | _ => false

/-- src/sodoku/cell.rs: Cell::is_filled. -/
def is_filled (c : Cell) : Bool := !c.is_empty

end Cell

/-- src/sodoku/point.rs: struct Point { x: Position, y: Position }; Position
(src/sodoku/position.rs) is a 9-valued index, embedded as Fin 9. -/
structure Point where
  x : Fin 9
  y : Fin 9
  deriving DecidableEq, Repr

/-- src/sodoku/grid.rs: struct SudokuGrid { cells: [[Cell; 9]; 9] }; the 9x9
array is embedded as a function. Point-indexing (src/sodoku/point.rs) is
cells[point.x][point.y]. -/
structure SudokuGrid where
  cells : Fin 9 → Fin 9 → Cell

namespace SudokuGrid

/-- src/sodoku/grid.rs: SudokuGrid::get_cell(point) = cells[point]
(= cells[point.x][point.y] via the Index impl in point.rs). -/
def get_cell (g : SudokuGrid) (p : Point) : Cell := g.cells p.x p.y

/-- src/sodoku/grid.rs: get_row(row) returns cells[row] as a Set. -/
def get_row (g : SudokuGrid) (row : Fin 9) : List Cell :=
  (List.finRange 9).map (fun c => g.cells row c)

/-- src/sodoku/grid.rs: get_column(col) collects cells[row][col] for each row. -/
def get_column (g : SudokuGrid) (col : Fin 9) : List Cell :=
  (List.finRange 9).map (fun r => g.cells r col)

/-- src/sodoku/position.rs: get_box_positions; entry k of the box of
Position p is Point((p % 3) * 3 + k / 3, (p / 3) * 3 + k % 3) (the k-th
pair of the x-outer y-inner iproduct over 0..3). This is its first
coordinate. -/
def sqRow (p k : Fin 9) : Fin 9 := ⟨(p.val % 3) * 3 + k.val / 3, by omega⟩

/-- Second coordinate of entry k of the box of Position p. -/
def sqCol (p k : Fin 9) : Fin 9 := ⟨(p.val / 3) * 3 + k.val % 3, by omega⟩

/-- src/sodoku/grid.rs: get_square reads the nine cells at
get_box_positions. -/
def get_square (g : SudokuGrid) (p : Fin 9) : List Cell :=
  (List.finRange 9).map (fun k => g.cells (sqRow p k) (sqCol p k))

end SudokuGrid

/-- src/sodoku/set.rs: Set::is_valid - the non-empty values of the nine
cells are all_unique (no duplicates; empties tolerated). -/
def set_is_valid (cells : List Cell) : Prop :=
  (cells.filterMap Cell.value).Nodup

instance (cells : List Cell) : Decidable (set_is_valid cells) :=
  inferInstanceAs (Decidable ((cells.filterMap Cell.value).Nodup))

/-- src/sodoku/grid.rs: SudokuGrid::is_valid_solution - every row, column
and square is_valid. -/
def is_valid_solution (g : SudokuGrid) : Prop :=
  (∀ row : Fin 9, set_is_valid (g.get_row row)) ∧
  (∀ col : Fin 9, set_is_valid (g.get_column col)) ∧
  (∀ square : Fin 9, set_is_valid (g.get_square square))

instance (g : SudokuGrid) : Decidable (is_valid_solution g) :=
  inferInstanceAs (Decidable (_ ∧ _ ∧ _))

/-! ## Graph construction (src/graph/mod.rs)

Graph::from_sudoku adds the 81 cell nodes first (x outer, y inner, so the
cell at Point(x, y) becomes petgraph node 9*x + y), then the 9 clique nodes
(the node for the value of index i is node 81 + i), then edges in this
order: row edges, column edges, box edges, hint-enforcement edges. petgraph
edge indices are positions in insertion order, so the edge list below IS the
edge-index map. petgraph's add_edge never deduplicates: a pair added twice
yields two distinct edge indices. -/

/-- The double loop `for i in 0..8 { for j in (i+1)..9 { .. } }` used for
row, column, box and clique-free pair enumeration: the 36 index pairs
(i, j) with i < j < 9, in loop order (i+1..9 has 8-i elements). -/
def allPairs : List (Nat × Nat) :=
  (List.range 8).flatMap (fun i =>
    (List.range' (i + 1) (8 - i)).map (fun j => (i, j)))

/-- src/graph/mod.rs lines 52-59: edges between cells of the same row;
row x holds nodes 9*x .. 9*x+8. -/
def rowEdges : List (Nat × Nat) :=
  (List.range 9).flatMap (fun x =>
    allPairs.map (fun p => (9 * x + p.1, 9 * x + p.2)))

/-- src/graph/mod.rs lines 61-68: edges between cells of the same column;
column c holds nodes c, 9+c, .., 72+c. -/
def colEdges : List (Nat × Nat) :=
  (List.range 9).flatMap (fun c =>
    allPairs.map (fun p => (9 * p.1 + c, 9 * p.2 + c)))

/-- src/graph/mod.rs lines 76-84: box_nodes[k] for box (box_row, box_col) is
the cell node of row 3*box_row + k/3, column 3*box_col + k%3 (k = 3*r + c
in the r-outer c-inner collection loop). -/
def boxNode (br bc k : Nat) : Nat :=
  9 * (3 * br + k / 3) + (3 * bc + k % 3)

/-- src/graph/mod.rs lines 70-93: edges between cells of the same 3x3 box,
boxes enumerated box_row outer, box_col inner. -/
def boxEdges : List (Nat × Nat) :=
  (List.range 3).flatMap (fun br =>
    (List.range 3).flatMap (fun bc =>
      allPairs.map (fun p => (boxNode br bc p.1, boxNode br bc p.2))))

/-- src/graph/mod.rs lines 95-113: each Hint(v) cell is connected to every
clique node except the one of index v.to_index (value.to_numeric - 1). -/
def hintEdges (g : SudokuGrid) : List (Nat × Nat) :=
  (List.finRange 9).flatMap (fun x =>
    (List.finRange 9).flatMap (fun y =>
      match g.cells x y with
      | Cell.Hint v =>
          ((List.range 9).filter (fun i => i != v.to_index)).map
            (fun i => (9 * x.val + y.val, 81 + i))
      | _ => []))

/-- The node labelling of the constructed graph: cell node n < 81 carries
the value of the cell at (n / 9, n % 9) - the source's
`cell.value().unwrap()`, whose success is guaranteed by the is_full guard of
from_sudoku below (the getD default is never taken there) - and clique node
81 + i carries the value of index i. -/
def gridLabel (g : SudokuGrid) (n : Nat) : Value :=
  if h : n < 81 then
    ((g.cells ⟨n / 9, by omega⟩ ⟨n % 9, by omega⟩).value).getD Value.One
  else
    (Value.from_index (n - 81)).getD Value.One

/-- src/graph/mod.rs: the colouring graph - 90 labelled nodes (ids 0..89)
and the edge list in insertion order (the edge index of an edge is its
position in this list). -/
structure Graph where
  label : Nat → Value
  edges : List (Nat × Nat)

/-- The number of nodes from_sudoku creates: 81 cell nodes + 9 clique nodes. -/
def Graph.node_count : Nat := 90

/-- Every cell of the grid carries a value (no Empty cell); the premise
under which from_sudoku's per-cell `cell.value().unwrap()` cannot panic. -/
def is_full (g : SudokuGrid) : Prop :=
  ∀ x y : Fin 9, (g.cells x y).value.isSome

instance (g : SudokuGrid) : Decidable (is_full g) :=
  inferInstanceAs (Decidable (∀ _, _))

/-- The graph from_sudoku builds for a fully populated grid. -/
def mkGraph (g : SudokuGrid) : Graph :=
  { label := gridLabel g
    edges := rowEdges ++ colEdges ++ boxEdges ++ hintEdges g }

/-- src/graph/mod.rs lines 20-116: Graph::from_sudoku; the unwrap-panic on
a grid with an Empty cell is embedded as none. -/
def from_sudoku (g : SudokuGrid) : Option Graph :=
  if is_full g then some (mkGraph g) else none

/-! ## Commitment scheme (src/crypto/commitment.rs)

The 256-bit hash (the external blake3 crate) is abstracted as an explicit
function parameter from input bytes to digest bytes; bytes are Nat. -/

def HashFn := List Nat → List Nat

/-- src/crypto/commitment.rs: struct CommitmentKey { value, nonce }. -/
structure CommitmentKey where
  value : Value
  nonce : List Nat
  deriving DecidableEq, Repr

/-- src/crypto/commitment.rs: compute_hash - the digest of the input bytes
[value.to_numeric()] ++ nonce. -/
def compute_hash (h : HashFn) (value : Value) (nonce : List Nat) : List Nat :=
  h (value.to_numeric :: nonce)

/-- src/crypto/commitment.rs: struct Commitment - digest, node id, and the
state-dependent key field (None in the Hidden state, Some in the Revealed
state; the phantom state parameter of the source is carried by this field). -/
structure Commitment where
  hash : List Nat
  node_id : Nat
  key : Option CommitmentKey
  deriving DecidableEq, Repr

/-- src/crypto/commitment.rs: Commitment::new - commit to a value for a
node; the 32 random nonce bytes are an explicit parameter. -/
def Commitment.new (h : HashFn) (value : Value) (node_id : Nat)
    (nonce : List Nat) : Commitment × CommitmentKey :=
  ({ hash := compute_hash h value nonce, node_id := node_id, key := none },
   { value := value, nonce := nonce })

/-- src/crypto/commitment.rs lines 95-97: Commitment::verify_hash -
recompute the key's hash and compare byte-equal with the stored digest. -/
def Commitment.verify_hash (h : HashFn) (c : Commitment)
    (key : CommitmentKey) : Bool :=
  compute_hash h key.value key.nonce == c.hash

/-- src/crypto/commitment.rs: CommitmentError. -/
inductive CommitmentError where
  | InvalidReveal
  deriving DecidableEq, Repr

/-- src/crypto/commitment.rs lines 62-72: Commitment::reveal. -/
def Commitment.reveal (h : HashFn) (c : Commitment) (key : CommitmentKey) :
    Except CommitmentError Commitment :=
  match c.verify_hash h key with
  | false => .error .InvalidReveal
  | true => .ok { hash := c.hash, node_id := c.node_id, key := some key }

/-- src/crypto/commitment.rs lines 77-81: Commitment::key() of a Revealed
commitment; the source's unwrap_unchecked is total because reveal always
stores the key, so the default of this total embedding is never taken on a
reveal result. -/
def Commitment.key_unchecked (c : Commitment) : CommitmentKey :=
  c.key.getD { value := Value.One, nonce := [] }

/-! ## Protocol types (src/zkproof/types.rs) -/

/-- src/zkproof/types.rs: RoundId, a newtype over usize. -/
abbrev RoundId := Nat

/-- src/zkproof/types.rs: ZkProofError. -/
inductive ZkProofError where
  | NodeNotFound (n : Nat)
  | EdgeNotFound (e : Nat)
  | NodeMismatch
  | InvalidReveal (e : CommitmentError)
  | NoEdges
  | RoundMismatch
  | AlreadyRevealed
  | ValueNotFound
  | GraphError (s : String)
  | SudokuError (s : String)
  deriving DecidableEq, Repr

/-- src/zkproof/types.rs: EdgeNodeMap = HashMap<EdgeIndex, (NodeIndex,
NodeIndex)>. Prover::new fills it with (edge id, (source, target)) for
every edge; since petgraph edge ids are exactly the positions 0..|E|-1 of
the edge list, the map is positional lookup in that list: its keys are the
indices below the length and lookup of e is get? e. -/
abbrev EdgeNodeMap := List (Nat × Nat)

/-- src/zkproof/types.rs: ProverCommitment; the HashMap from node id to
hidden commitment is embedded as a function (none = key absent). -/
structure ProverCommitment where
  round_id : RoundId
  commitments : Nat → Option Commitment

/-- src/zkproof/types.rs: VerifierChallenge. -/
structure VerifierChallenge where
  round_id : RoundId
  edge : Nat
  deriving DecidableEq, Repr

/-- src/zkproof/types.rs: NodeReveal. -/
structure NodeReveal where
  node_idx : Nat
  node_key : CommitmentKey
  deriving DecidableEq, Repr

/-- src/zkproof/types.rs: ProverResponse. -/
structure ProverResponse where
  round_id : RoundId
  edge : Nat
  node1 : NodeReveal
  node2 : NodeReveal
  deriving DecidableEq, Repr

/-- src/zkproof/types.rs: VerifierResult. -/
structure VerifierResult where
  round_id : RoundId
  success : Bool
  deriving DecidableEq, Repr

/-! ## Prover (src/zkproof/prover.rs) -/

/-- src/zkproof/prover.rs: ProverRound; the HashMap from node id to
commitment key is embedded as a function. -/
structure ProverRound where
  colour_shuffle : Value → Value
  commitment_keys : Nat → Option CommitmentKey
  challenged_edges : List Nat

/-- src/zkproof/prover.rs: Prover. -/
structure Prover where
  graph : Graph
  rounds : List ProverRound
  current_round : RoundId

/-- src/zkproof/prover.rs lines 25-46: Prover::new - builds the graph (the
commented-out puzzle validation of the source is skipped, so no SudokuError
is possible and the only failure is from_sudoku's panic, embedded as none)
and hands the verifier the edge map (edge id to (source, target), which is
positional lookup in the edge list). -/
def Prover.new (g : SudokuGrid) : Option (Prover × EdgeNodeMap) :=
  (from_sudoku g).map (fun G =>
    ({ graph := G, rounds := [], current_round := 0 }, G.edges))

/-- src/zkproof/prover.rs lines 48-74: Prover::start_round - commit to the
shuffled label of every node of the graph (petgraph node ids 0..89) under a
fresh colour permutation; the permutation and the per-node nonces are
explicit parameters standing for the sampled randomness. -/
def Prover.start_round (h : HashFn) (shuffle : Value → Value)
    (nonce : Nat → List Nat) (p : Prover) : Prover × ProverCommitment :=
  let commitments : Nat → Option Commitment := fun n =>
    if n < Graph.node_count then
      some (Commitment.new h (shuffle (p.graph.label n)) n (nonce n)).1
    else none
  let keys : Nat → Option CommitmentKey := fun n =>
    if n < Graph.node_count then
      some (Commitment.new h (shuffle (p.graph.label n)) n (nonce n)).2
    else none
  let round : ProverRound :=
    { colour_shuffle := shuffle, commitment_keys := keys
      challenged_edges := [] }
  let round_id : RoundId := p.rounds.length
  ({ p with rounds := p.rounds ++ [round], current_round := round_id },
   { round_id := round_id, commitments := commitments })

/-- src/zkproof/prover.rs lines 76-121: Prover::respond_to_challenge;
the outer none embeds the panic of indexing self.rounds[round_idx] out of
bounds (reachable only if no round was ever started). -/
def Prover.respond_to_challenge (p : Prover) (ch : VerifierChallenge) :
    Option (Except ZkProofError (Prover × ProverResponse)) :=
  if ch.round_id ≠ p.current_round then some (.error .RoundMismatch)
  else
    match p.rounds.get? ch.round_id with
    | none => none
    | some round =>
      if round.challenged_edges.contains ch.edge then
        some (.error .AlreadyRevealed)
      else
        match p.graph.edges.get? ch.edge with
        | none => some (.error (.EdgeNotFound ch.edge))
        | some (node1, node2) =>
          match round.commitment_keys node1 with
          | none => some (.error (.NodeNotFound node1))
          | some node1_key =>
            match round.commitment_keys node2 with
            | none => some (.error (.NodeNotFound node2))
            | some node2_key =>
              let updated :=
                { round with
                  challenged_edges := round.challenged_edges ++ [ch.edge] }
              some (.ok
                ({ p with rounds := p.rounds.set ch.round_id updated },
                 { round_id := ch.round_id, edge := ch.edge
                   node1 := { node_idx := node1, node_key := node1_key }
                   node2 := { node_idx := node2, node_key := node2_key } }))

/-! ## Verifier (src/zkproof/verifier.rs) -/

/-- src/zkproof/verifier.rs: VerifierRound. -/
structure VerifierRound where
  commitment : ProverCommitment
  challenge_edge : Nat
  response : Option ProverResponse
  verified : Bool

/-- src/zkproof/verifier.rs: Verifier. -/
structure Verifier where
  edge_map : EdgeNodeMap
  rounds : List VerifierRound
  current_round : RoundId

/-- src/zkproof/verifier.rs lines 23-29: Verifier::new. -/
def Verifier.new (edge_map : EdgeNodeMap) : Verifier :=
  { edge_map := edge_map, rounds := [], current_round := 0 }

/-- src/zkproof/verifier.rs lines 31-65: Verifier::receive_commitment; the
edge chosen uniformly at random from the edge map's keys is the explicit
sampled_edge parameter (the sampler only returns keys of the map, i.e.
indices below edge_map.length). -/
def Verifier.receive_commitment (sampled_edge : Nat) (v : Verifier)
    (c : ProverCommitment) :
    Except ZkProofError (Verifier × VerifierChallenge) :=
  if c.round_id ≠ v.rounds.length then .error .RoundMismatch
  else if v.edge_map.isEmpty then .error .NoEdges
  else
    let round : VerifierRound :=
      { commitment := c, challenge_edge := sampled_edge
        response := none, verified := false }
    .ok ({ v with rounds := v.rounds ++ [round], current_round := c.round_id },
         { round_id := c.round_id, edge := sampled_edge })

/-- src/zkproof/verifier.rs lines 67-145: Verifier::verify_response. The
&mut self method is embedded as state passing: every error branch returns
the incoming state untouched, exactly as the source mutates its round only
after the last fallible step. -/
def Verifier.verify_response (h : HashFn) (v : Verifier)
    (resp : ProverResponse) : Verifier × Except ZkProofError VerifierResult :=
  if resp.round_id ≠ v.current_round then (v, .error .RoundMismatch)
  else
    match v.rounds.get? resp.round_id with
    | none => (v, .error .RoundMismatch)
    | some round =>
      if round.challenge_edge ≠ resp.edge then (v, .error .RoundMismatch)
      else
        match v.edge_map.get? resp.edge with
        | none => (v, .error (.EdgeNotFound resp.edge))
        | some (expected_node1, expected_node2) =>
          if resp.node1.node_idx ≠ expected_node1 ∨
             resp.node2.node_idx ≠ expected_node2 then
            (v, .error .NodeMismatch)
          else
            match round.commitment.commitments resp.node1.node_idx with
            | none => (v, .error (.NodeNotFound resp.node1.node_idx))
            | some c1 =>
              match round.commitment.commitments resp.node2.node_idx with
              | none => (v, .error (.NodeNotFound resp.node2.node_idx))
              | some c2 =>
                match c1.reveal h resp.node1.node_key with
                | .error e => (v, .error (.InvalidReveal e))
                | .ok node1_revealed =>
                  match c2.reveal h resp.node2.node_key with
                  | .error e => (v, .error (.InvalidReveal e))
                  | .ok node2_revealed =>
                    let success :=
                      node1_revealed.key_unchecked.value ≠
                        node2_revealed.key_unchecked.value
                    let updated :=
                      { round with
                        response := some
                          { round_id := resp.round_id, edge := resp.edge
                            node1 := { node_idx := resp.node1.node_idx
                                       node_key := node1_revealed.key_unchecked }
                            node2 := { node_idx := resp.node2.node_idx
                                       node_key := node2_revealed.key_unchecked } }
                        verified := success }
                    ({ v with rounds := v.rounds.set resp.round_id updated },
                     .ok { round_id := resp.round_id, success := success })

/-! ## Protocol orchestrator (src/zkproof/protocol.rs) -/

/-- src/zkproof/protocol.rs: ZKProtocol. -/
structure ZKProtocol where
  prover : Prover
  verifier : Verifier

/-- src/zkproof/protocol.rs lines 11-15: ZKProtocol::new. -/
def ZKProtocol.new (g : SudokuGrid) : Option ZKProtocol :=
  (Prover.new g).map (fun pe =>
    { prover := pe.1, verifier := Verifier.new pe.2 })

/-- src/zkproof/protocol.rs lines 17-29: ZKProtocol::run_round - the four
message passes of a round, with the round's randomness (colour permutation,
nonces, sampled challenge edge) as explicit parameters; none embeds a panic
in a sub-step. -/
def ZKProtocol.run_round (h : HashFn) (shuffle : Value → Value)
    (nonce : Nat → List Nat) (sampled_edge : Nat) (z : ZKProtocol) :
    Option (ZKProtocol × Except ZkProofError VerifierResult) :=
  let step1 := z.prover.start_round h shuffle nonce
  match z.verifier.receive_commitment sampled_edge step1.2 with
  | .error e => some ({ z with prover := step1.1 }, .error e)
  | .ok (v1, challenge) =>
    match step1.1.respond_to_challenge challenge with
    | none => none
    | some (.error e) =>
      some ({ prover := step1.1, verifier := v1 }, .error e)
    | some (.ok (p2, response)) =>
      let step4 := v1.verify_response h response
      some ({ prover := p2, verifier := step4.1 }, step4.2)

/-- src/zkproof/protocol.rs lines 54-58: ZKProtocol::calculate_rounds_needed;
the f64 arithmetic (ln, division, ceil, and the saturating cast of the
ceiling to usize) is embedded as real arithmetic with Nat.ceil. -/
noncomputable def calculate_rounds_needed (edge_count : Nat)
    (confidence : ℝ) : Nat :=
  Nat.ceil (Real.log (1 - confidence / 100) /
    Real.log (1 - 1 / (edge_count : ℝ)))

/-! ## Concrete inputs used by witnesses and counterexamples -/

/-- The Value named by a decimal digit 1..9 (used to spell concrete grids). -/
def valOfDigit (d : Nat) : Value := (Value.from_index (d - 1)).getD Value.One

/-- The 81 digits of the spec's scenario S1 grid
"2965413788512736947436982519157648323871529466248395171394867254783251695629
17483", a fully populated valid solution. -/
def digitsS1 : List Nat :=
  [2,9,6,5,4,1,3,7,8,
   8,5,1,2,7,3,6,9,4,
   7,4,3,6,9,8,2,5,1,
   9,1,5,7,6,4,8,3,2,
   3,8,7,1,5,2,9,4,6,
   6,2,4,8,3,9,5,1,7,
   1,3,9,4,8,6,7,2,5,
   4,7,8,3,2,5,1,6,9,
   5,6,2,9,1,7,4,8,3]

/-- The S1 grid, entered as Guess cells (a prover-supplied full solution). -/
def gridS1 : SudokuGrid :=
  ⟨fun x y => Cell.Guess (valOfDigit (digitsS1.getD (9 * x.val + y.val) 1))⟩

/-- A fully populated grid whose 81 Guess values are all One - not a valid
solution. -/
def gridAllOnes : SudokuGrid := ⟨fun _ _ => Cell.Guess Value.One⟩

/-- A 9-colouring of the 90 graph nodes taken from the S1 solution: cell
node n gets the S1 value at position n, clique node 81+i the value of
index i. -/
def colouringS1 : Nat → Value :=
  fun n =>
    if n < 81 then valOfDigit (digitsS1.getD n 1)
    else (Value.from_index (n - 81)).getD Value.One

/-! ## Helper lemmas -/

theorem value_from_index_to_index (v : Value) :
    Value.from_index v.to_index = some v := by cases v <;> rfl

theorem value_to_index_lt (v : Value) : v.to_index < 9 := by
  cases v <;> decide

theorem from_index_getD_ne {i : Nat} (v : Value) (h9 : i < 9)
    (hne : i ≠ v.to_index) : (Value.from_index i).getD Value.One ≠ v := by
  have h : ∀ (j : Fin 9) (w : Value),
      j.val ≠ w.to_index → (Value.from_index j.val).getD Value.One ≠ w := by
    decide
  exact h ⟨i, h9⟩ v hne

theorem mem_allPairs {p : Nat × Nat} :
    p ∈ allPairs ↔ p.1 < p.2 ∧ p.2 < 9 := by
  simp only [allPairs, List.mem_flatMap, List.mem_map, List.mem_range,
    List.mem_range']
  constructor
  · rintro ⟨i, hi, j, ⟨k, hk, rfl⟩, rfl⟩
    simp; omega
  · rintro ⟨h1, h2⟩
    exact ⟨p.1, by omega, p.2, ⟨p.2 - p.1 - 1, by omega, by omega⟩, rfl⟩

theorem mem_rowEdges {e : Nat × Nat} :
    e ∈ rowEdges ↔
      ∃ x i j, x < 9 ∧ i < j ∧ j < 9 ∧ e = (9 * x + i, 9 * x + j) := by
  simp only [rowEdges, List.mem_flatMap, List.mem_map, List.mem_range]
  constructor
  · rintro ⟨x, hx, p, hp, rfl⟩
    obtain ⟨h1, h2⟩ := mem_allPairs.mp hp
    exact ⟨x, p.1, p.2, hx, h1, h2, rfl⟩
  · rintro ⟨x, i, j, hx, hij, hj, rfl⟩
    exact ⟨x, hx, (i, j), mem_allPairs.mpr ⟨hij, hj⟩, rfl⟩

theorem mem_colEdges {e : Nat × Nat} :
    e ∈ colEdges ↔
      ∃ c i j, c < 9 ∧ i < j ∧ j < 9 ∧ e = (9 * i + c, 9 * j + c) := by
  simp only [colEdges, List.mem_flatMap, List.mem_map, List.mem_range]
  constructor
  · rintro ⟨c, hc, p, hp, rfl⟩
    obtain ⟨h1, h2⟩ := mem_allPairs.mp hp
    exact ⟨c, p.1, p.2, hc, h1, h2, rfl⟩
  · rintro ⟨c, i, j, hc, hij, hj, rfl⟩
    exact ⟨c, hc, (i, j), mem_allPairs.mpr ⟨hij, hj⟩, rfl⟩

theorem mem_boxEdges {e : Nat × Nat} :
    e ∈ boxEdges ↔
      ∃ br bc k l, br < 3 ∧ bc < 3 ∧ k < l ∧ l < 9 ∧
        e = (boxNode br bc k, boxNode br bc l) := by
  simp only [boxEdges, List.mem_flatMap, List.mem_map, List.mem_range]
  constructor
  · rintro ⟨br, hbr, bc, hbc, p, hp, rfl⟩
    obtain ⟨h1, h2⟩ := mem_allPairs.mp hp
    exact ⟨br, bc, p.1, p.2, hbr, hbc, h1, h2, rfl⟩
  · rintro ⟨br, bc, k, l, hbr, hbc, hkl, hl, rfl⟩
    exact ⟨br, hbr, bc, hbc, (k, l), mem_allPairs.mpr ⟨hkl, hl⟩, rfl⟩

theorem mem_hintEdges {g : SudokuGrid} {e : Nat × Nat} :
    e ∈ hintEdges g ↔
      ∃ (x y : Fin 9) (v : Value) (i : Nat),
        g.cells x y = Cell.Hint v ∧ i < 9 ∧ i ≠ v.to_index ∧
        e = (9 * x.val + y.val, 81 + i) := by
  simp only [hintEdges, List.mem_flatMap, List.mem_finRange, true_and]
  constructor
  · rintro ⟨x, y, h⟩
    rcases hc : g.cells x y with _ | v | v <;> rw [hc] at h <;>
      simp only [List.not_mem_nil] at h
    simp only [List.mem_map, List.mem_filter, List.mem_range] at h
    obtain ⟨i, ⟨hi, hne⟩, rfl⟩ := h
    exact ⟨x, y, v, i, hc, hi, by simpa using hne, rfl⟩
  · rintro ⟨x, y, v, i, hc, hi, hne, rfl⟩
    refine ⟨x, y, ?_⟩
    rw [hc]
    simp only [List.mem_map, List.mem_filter, List.mem_range]
    exact ⟨i, ⟨hi, by simpa using hne⟩, rfl⟩

/-- The value carried by a cell, defaulting to One on Empty (on a full grid
the default is never taken). -/
def cellVal (g : SudokuGrid) (x y : Fin 9) : Value :=
  ((g.cells x y).value).getD Value.One

theorem value_eq_cellVal {g : SudokuGrid} (hf : is_full g) (x y : Fin 9) :
    (g.cells x y).value = some (cellVal g x y) := by
  obtain ⟨v, hv⟩ := Option.isSome_iff_exists.mp (hf x y)
  simp [cellVal, hv]

theorem gridLabel_cell (g : SudokuGrid) (x y : Fin 9) :
    gridLabel g (9 * x.val + y.val) = cellVal g x y := by
  have h : 9 * x.val + y.val < 81 := by omega
  unfold gridLabel cellVal
  rw [dif_pos h]
  have hx : (⟨(9 * x.val + y.val) / 9, by omega⟩ : Fin 9) = x := by
    apply Fin.ext; simp; omega
  have hy : (⟨(9 * x.val + y.val) % 9, by omega⟩ : Fin 9) = y := by
    apply Fin.ext; simp; omega
  rw [hx, hy]

theorem gridLabel_clique (g : SudokuGrid) {i : Nat} (h9 : i < 9) :
    gridLabel g (81 + i) = (Value.from_index i).getD Value.One := by
  unfold gridLabel
  rw [dif_neg (by omega)]
  have h : 81 + i - 81 = i := by omega
  rw [h]

theorem cellVal_congr (g : SudokuGrid) {x x' y y' : Fin 9}
    (hx : x = x') (hy : y = y') : cellVal g x y = cellVal g x' y' := by
  rw [hx, hy]

theorem filterMap_value_full {l : List Cell}
    (h : ∀ c ∈ l, c.value.isSome) :
    l.filterMap Cell.value = l.map (fun c => c.value.getD Value.One) := by
  induction l with
  | nil => rfl
  | cons a t ih =>
    simp only [List.mem_cons, forall_eq_or_imp] at h
    obtain ⟨v, hv⟩ := Option.isSome_iff_exists.mp h.1
    simp [List.filterMap_cons, hv, ih h.2]

theorem nodup_vals_iff {f : Fin 9 → Value} :
    ((List.finRange 9).map f).Nodup ↔ ∀ i j : Fin 9, f i = f j → i = j := by
  rw [List.nodup_map_iff_inj_on (List.nodup_finRange 9)]
  constructor
  · intro h i j
    exact h i (List.mem_finRange i) j (List.mem_finRange j)
  · intro h i _ j _
    exact h i j

theorem row_valid_iff {g : SudokuGrid} (hf : is_full g) (x : Fin 9) :
    set_is_valid (g.get_row x) ↔
      ∀ i j : Fin 9, cellVal g x i = cellVal g x j → i = j := by
  unfold set_is_valid SudokuGrid.get_row
  rw [filterMap_value_full (by
    intro c hc
    simp only [List.mem_map] at hc
    obtain ⟨y, -, rfl⟩ := hc
    exact hf x y)]
  rw [List.map_map]
  exact nodup_vals_iff

theorem col_valid_iff {g : SudokuGrid} (hf : is_full g) (y : Fin 9) :
    set_is_valid (g.get_column y) ↔
      ∀ i j : Fin 9, cellVal g i y = cellVal g j y → i = j := by
  unfold set_is_valid SudokuGrid.get_column
  rw [filterMap_value_full (by
    intro c hc
    simp only [List.mem_map] at hc
    obtain ⟨x, -, rfl⟩ := hc
    exact hf x y)]
  rw [List.map_map]
  exact nodup_vals_iff

theorem square_valid_iff {g : SudokuGrid} (hf : is_full g) (p : Fin 9) :
    set_is_valid (g.get_square p) ↔
      ∀ k l : Fin 9,
        cellVal g (SudokuGrid.sqRow p k) (SudokuGrid.sqCol p k) =
          cellVal g (SudokuGrid.sqRow p l) (SudokuGrid.sqCol p l) → k = l := by
  unfold set_is_valid SudokuGrid.get_square
  rw [filterMap_value_full (by
    intro c hc
    simp only [List.mem_map] at hc
    obtain ⟨k, -, rfl⟩ := hc
    exact hf _ _)]
  rw [List.map_map]
  exact nodup_vals_iff

theorem gridLabel_cellN (g : SudokuGrid) {x y : Nat} (hx : x < 9)
    (hy : y < 9) : gridLabel g (9 * x + y) = cellVal g ⟨x, hx⟩ ⟨y, hy⟩ :=
  gridLabel_cell g ⟨x, hx⟩ ⟨y, hy⟩

theorem rowEdges_sub (g : SudokuGrid) {e : Nat × Nat} (h : e ∈ rowEdges) :
    e ∈ (mkGraph g).edges := by
  simp only [mkGraph, List.mem_append]
  exact Or.inl (Or.inl (Or.inl h))

theorem colEdges_sub (g : SudokuGrid) {e : Nat × Nat} (h : e ∈ colEdges) :
    e ∈ (mkGraph g).edges := by
  simp only [mkGraph, List.mem_append]
  exact Or.inl (Or.inl (Or.inr h))

theorem boxEdges_sub (g : SudokuGrid) {e : Nat × Nat} (h : e ∈ boxEdges) :
    e ∈ (mkGraph g).edges := by
  simp only [mkGraph, List.mem_append]
  exact Or.inl (Or.inr h)

theorem hintEdges_sub (g : SudokuGrid) {e : Nat × Nat}
    (h : e ∈ hintEdges g) : e ∈ (mkGraph g).edges := by
  simp only [mkGraph, List.mem_append]
  exact Or.inr h

/-- The label of a box-edge endpoint, written as the cell that square
q = 3*bc + br reads at offset k. -/
theorem boxNode_label (g : SudokuGrid) {br bc k : Nat} (hbr : br < 3)
    (_hbc : bc < 3) (hk : k < 9) (q kf : Fin 9) (hq : q.val = 3 * bc + br)
    (hkf : kf.val = k) :
    gridLabel g (boxNode br bc k) =
      cellVal g (SudokuGrid.sqRow q kf) (SudokuGrid.sqCol q kf) := by
  have h1 : boxNode br bc k = 9 * (3 * br + k / 3) + (3 * bc + k % 3) := rfl
  rw [h1, gridLabel_cellN g (by omega) (by omega)]
  apply cellVal_congr <;> apply Fin.ext <;>
    simp [SudokuGrid.sqRow, SudokuGrid.sqCol, hq, hkf] <;> omega

/-- Central lemma: for a fully populated grid, the grid is a valid Sudoku
solution exactly when the labelling of the constructed graph is a proper
colouring (no edge joins equal labels). -/
theorem valid_iff_proper (g : SudokuGrid) (hf : is_full g) :
    is_valid_solution g ↔
      ∀ e ∈ (mkGraph g).edges, gridLabel g e.1 ≠ gridLabel g e.2 := by
  constructor
  · rintro ⟨hr, hc, hs⟩ e he
    simp only [mkGraph, List.mem_append] at he
    rcases he with ((her | hec) | heb) | heh
    · rw [mem_rowEdges] at her
      obtain ⟨x, i, j, hx, hij, hj, rfl⟩ := her
      intro heq
      rw [gridLabel_cellN g hx (show i < 9 by omega),
        gridLabel_cellN g hx hj] at heq
      have h2 := (row_valid_iff hf ⟨x, hx⟩).mp (hr ⟨x, hx⟩) _ _ heq
      rw [Fin.mk.injEq] at h2
      omega
    · rw [mem_colEdges] at hec
      obtain ⟨y, i, j, hy, hij, hj, rfl⟩ := hec
      intro heq
      rw [gridLabel_cellN g (show i < 9 by omega) hy,
        gridLabel_cellN g hj hy] at heq
      have h2 := (col_valid_iff hf ⟨y, hy⟩).mp (hc ⟨y, hy⟩) _ _ heq
      rw [Fin.mk.injEq] at h2
      omega
    · rw [mem_boxEdges] at heb
      obtain ⟨br, bc, k, l, hbr, hbc, hkl, hl, rfl⟩ := heb
      intro heq
      rw [boxNode_label g hbr hbc (show k < 9 by omega)
          ⟨3 * bc + br, by omega⟩ ⟨k, by omega⟩ rfl rfl,
        boxNode_label g hbr hbc hl
          ⟨3 * bc + br, by omega⟩ ⟨l, hl⟩ rfl rfl] at heq
      have h2 := (square_valid_iff hf ⟨3 * bc + br, by omega⟩).mp
        (hs ⟨3 * bc + br, by omega⟩) _ _ heq
      rw [Fin.mk.injEq] at h2
      omega
    · rw [mem_hintEdges] at heh
      obtain ⟨x, y, v, i, hcell, hi, hne, rfl⟩ := heh
      intro heq
      rw [gridLabel_cellN g x.isLt y.isLt, gridLabel_clique g hi] at heq
      simp only [Fin.eta] at heq
      rw [show cellVal g x y = v by simp [cellVal, hcell, Cell.value]] at heq
      exact from_index_getD_ne v hi hne heq.symm
  · intro hp
    refine ⟨fun x => ?_, fun y => ?_, fun p => ?_⟩
    · rw [row_valid_iff hf x]
      intro i j heq
      by_contra hne
      have hv : i.val ≠ j.val := fun hh => hne (Fin.ext hh)
      rcases Nat.lt_or_ge i.val j.val with hlt | hge
      · have := hp _ (rowEdges_sub g (mem_rowEdges.mpr
          ⟨x.val, i.val, j.val, x.isLt, hlt, j.isLt, rfl⟩))
        rw [gridLabel_cellN g x.isLt i.isLt,
          gridLabel_cellN g x.isLt j.isLt] at this
        simp only [Fin.eta] at this
        exact this heq
      · have hlt : j.val < i.val := by omega
        have := hp _ (rowEdges_sub g (mem_rowEdges.mpr
          ⟨x.val, j.val, i.val, x.isLt, hlt, i.isLt, rfl⟩))
        rw [gridLabel_cellN g x.isLt j.isLt,
          gridLabel_cellN g x.isLt i.isLt] at this
        simp only [Fin.eta] at this
        exact this heq.symm
    · rw [col_valid_iff hf y]
      intro i j heq
      by_contra hne
      have hv : i.val ≠ j.val := fun hh => hne (Fin.ext hh)
      rcases Nat.lt_or_ge i.val j.val with hlt | hge
      · have := hp _ (colEdges_sub g (mem_colEdges.mpr
          ⟨y.val, i.val, j.val, y.isLt, hlt, j.isLt, rfl⟩))
        rw [gridLabel_cellN g i.isLt y.isLt,
          gridLabel_cellN g j.isLt y.isLt] at this
        simp only [Fin.eta] at this
        exact this heq
      · have hlt : j.val < i.val := by omega
        have := hp _ (colEdges_sub g (mem_colEdges.mpr
          ⟨y.val, j.val, i.val, y.isLt, hlt, i.isLt, rfl⟩))
        rw [gridLabel_cellN g j.isLt y.isLt,
          gridLabel_cellN g i.isLt y.isLt] at this
        simp only [Fin.eta] at this
        exact this heq.symm
    · rw [square_valid_iff hf p]
      intro k l heq
      by_contra hne
      have hv : k.val ≠ l.val := fun hh => hne (Fin.ext hh)
      rcases Nat.lt_or_ge k.val l.val with hlt | hge
      · have := hp _ (boxEdges_sub g (mem_boxEdges.mpr
          ⟨p.val % 3, p.val / 3, k.val, l.val, by omega, by omega, hlt,
            l.isLt, rfl⟩))
        rw [boxNode_label g (by omega) (by omega) k.isLt p k (by omega) rfl,
          boxNode_label g (by omega) (by omega) l.isLt p l (by omega) rfl]
          at this
        exact this heq
      · have hlt : l.val < k.val := by omega
        have := hp _ (boxEdges_sub g (mem_boxEdges.mpr
          ⟨p.val % 3, p.val / 3, l.val, k.val, by omega, by omega, hlt,
            k.isLt, rfl⟩))
        rw [boxNode_label g (by omega) (by omega) l.isLt p l (by omega) rfl,
          boxNode_label g (by omega) (by omega) k.isLt p k (by omega) rfl]
          at this
        exact this heq.symm

theorem from_sudoku_of_full {g : SudokuGrid} (hf : is_full g) :
    from_sudoku g = some (mkGraph g) := by
  unfold from_sudoku
  rw [if_pos hf]

theorem from_sudoku_eq_some {g : SudokuGrid} {G : Graph}
    (h : from_sudoku g = some G) : is_full g ∧ G = mkGraph g := by
  unfold from_sudoku at h
  by_cases hf : is_full g
  · rw [if_pos hf] at h
    exact ⟨hf, (Option.some_inj.mp h).symm⟩
  · rw [if_neg hf] at h
    cases h

/-- Every edge the construction emits starts at a cell node: its first
endpoint is one of the nodes 0..80. In particular no edge joins two of the
clique nodes 81..89. -/
theorem edge_fst_lt_81 (g : SudokuGrid) :
    ∀ e ∈ (mkGraph g).edges, e.1 < 81 := by
  intro e he
  simp only [mkGraph, List.mem_append] at he
  rcases he with ((h | h) | h) | h
  · obtain ⟨x, i, j, hx, hij, hj, rfl⟩ := mem_rowEdges.mp h
    simp
    omega
  · obtain ⟨c, i, j, hc9, hij, hj, rfl⟩ := mem_colEdges.mp h
    simp
    omega
  · obtain ⟨br, bc, k, l, hbr, hbc, hkl, hl, rfl⟩ := mem_boxEdges.mp h
    simp [boxNode]
    omega
  · obtain ⟨x, y, v, i, hcell, hi, hne, rfl⟩ := mem_hintEdges.mp h
    simp
    omega

/-- Both endpoints of every edge are among the 90 nodes. -/
theorem edge_endpoints_lt_90 (g : SudokuGrid) :
    ∀ e ∈ (mkGraph g).edges, e.1 < 90 ∧ e.2 < 90 := by
  intro e he
  refine ⟨by have := edge_fst_lt_81 g e he; omega, ?_⟩
  simp only [mkGraph, List.mem_append] at he
  rcases he with ((h | h) | h) | h
  · obtain ⟨x, i, j, hx, hij, hj, rfl⟩ := mem_rowEdges.mp h
    simp
    omega
  · obtain ⟨c, i, j, hc9, hij, hj, rfl⟩ := mem_colEdges.mp h
    simp
    omega
  · obtain ⟨br, bc, k, l, hbr, hbc, hkl, hl, rfl⟩ := mem_boxEdges.mp h
    simp [boxNode]
    omega
  · obtain ⟨x, y, v, i, hcell, hi, hne, rfl⟩ := mem_hintEdges.mp h
    simp
    omega

/-- The second endpoint of every row, column or box edge is a cell node. -/
theorem base_edge_snd_lt_81 {e : Nat × Nat}
    (h : e ∈ rowEdges ∨ e ∈ colEdges ∨ e ∈ boxEdges) : e.2 < 81 := by
  rcases h with h | h | h
  · obtain ⟨x, i, j, hx, hij, hj, rfl⟩ := mem_rowEdges.mp h
    simp
    omega
  · obtain ⟨c, i, j, hc9, hij, hj, rfl⟩ := mem_colEdges.mp h
    simp
    omega
  · obtain ⟨br, bc, k, l, hbr, hbc, hkl, hl, rfl⟩ := mem_boxEdges.mp h
    simp [boxNode]
    omega

/-- A colouring of the graph's nodes is proper when no edge joins two
equally coloured nodes. -/
def proper_colouring (G : Graph) (c : Nat → Value) : Prop :=
  ∀ e ∈ G.edges, c e.1 ≠ c e.2

/-- A grid whose top-left cell is Empty (all others filled). -/
def gridOneEmpty : SudokuGrid :=
  ⟨fun x y => if x.val = 0 ∧ y.val = 0 then Cell.Empty
    else Cell.Guess Value.One⟩

/-- C10: Graph::from_sudoku unwraps every cell's value; on a fully
populated grid the construction is total (it returns a graph), while a grid
with any Empty cell makes the unwrap panic (embedded: from_sudoku returns
none). -/
theorem from_sudoku_total_iff_full (g : SudokuGrid) :
    ((∀ x y : Fin 9, (g.cells x y).value.isSome) →
      ∃ G, from_sudoku g = some G) ∧
    ((∃ x y : Fin 9, g.cells x y = Cell.Empty) → from_sudoku g = none) := by
  constructor
  · intro hf
    exact ⟨mkGraph g, from_sudoku_of_full hf⟩
  · rintro ⟨x, y, hxy⟩
    unfold from_sudoku
    rw [if_neg]
    intro hf
    have h := hf x y
    rw [hxy] at h
    simp [Cell.value] at h

/-- Witness for C10 at the concrete S1 grid (fully populated: a graph is
produced) and at a grid with an Empty top-left cell (the construction
panics, i.e. returns none). -/
theorem from_sudoku_total_iff_full_witness :
    (∃ G, from_sudoku gridS1 = some G) ∧ from_sudoku gridOneEmpty = none :=
  ⟨(from_sudoku_total_iff_full gridS1).1 (by decide),
   (from_sudoku_total_iff_full gridOneEmpty).2 ⟨0, 0, by decide⟩⟩

/-- C3: for a fully populated grid (one the construction accepts), the grid
is a valid Sudoku solution exactly when the graph's node labelling is a
proper 9-colouring: no edge connects two nodes with equal labels. -/
theorem valid_solution_iff_proper_labelling (g : SudokuGrid) (G : Graph)
    (hG : from_sudoku g = some G) :
    is_valid_solution g ↔ proper_colouring G G.label := by
  obtain ⟨hf, rfl⟩ := from_sudoku_eq_some hG
  exact valid_iff_proper g hf

/-- Witness for C3 at the S1 grid. -/
theorem valid_solution_iff_proper_labelling_witness :
    is_valid_solution gridS1 ↔
      proper_colouring (mkGraph gridS1) (mkGraph gridS1).label :=
  valid_solution_iff_proper_labelling gridS1 (mkGraph gridS1)
    (from_sudoku_of_full (by decide))

/-- C2 (refuted, code bug): the construction never joins two clique nodes -
every edge's first endpoint is a cell node (node id < 81) - so the graph of
the fully populated S1 grid has zero edges with both endpoints among the
clique nodes 81..89, where the spec demands all 36. -/
theorem no_clique_clique_edges :
    from_sudoku gridS1 = some (mkGraph gridS1) ∧
    ((mkGraph gridS1).edges.filter
      (fun e => 81 ≤ e.1 && 81 ≤ e.2)) = [] := by
  refine ⟨from_sudoku_of_full (by decide), List.filter_eq_nil_iff.mpr ?_⟩
  intro e he
  have h := edge_fst_lt_81 gridS1 e he
  simp
  omega

/-- The S1 solution entered as Hint cells (a fully hinted puzzle). -/
def gridS1Hints : SudokuGrid :=
  ⟨fun x y => Cell.Hint (valOfDigit (digitsS1.getD (9 * x.val + y.val) 1))⟩

theorem colouringS1_eq_label (n : Nat) :
    colouringS1 n = gridLabel gridS1 n := by
  by_cases h : n < 81
  · have hh : 9 * (n / 9) + n % 9 = n := by omega
    simp only [colouringS1, gridLabel, if_pos h, dif_pos h, gridS1,
      Cell.value, Option.getD_some, hh]
  · simp only [colouringS1, gridLabel, if_neg h, dif_neg h]

set_option maxRecDepth 100000 in
/-- C1 (refuted): the edge set of the graph does not depend on the Guess
values, so a proper 9-colouring can exist although the grid's Guess values
are not a valid solution. Concretely: for the fully populated all-Guess(1)
grid (which is not a valid solution) the S1 solution is a proper
9-colouring of the constructed graph. -/
theorem colouring_without_valid_guesses :
    from_sudoku gridAllOnes = some (mkGraph gridAllOnes) ∧
    proper_colouring (mkGraph gridAllOnes) colouringS1 ∧
    ¬ is_valid_solution gridAllOnes := by
  have hhint1 : hintEdges gridAllOnes = [] := by decide
  have hhintS1 : hintEdges gridS1 = [] := by decide
  have hE : (mkGraph gridAllOnes).edges = (mkGraph gridS1).edges := by
    simp only [mkGraph, hhint1, hhintS1]
  refine ⟨from_sudoku_of_full (by decide), ?_, by decide⟩
  intro e he
  rw [hE] at he
  rw [colouringS1_eq_label, colouringS1_eq_label]
  exact (valid_iff_proper gridS1 (by decide)).mp (by decide) e he

/-- C1 (amended): if a fully populated grid is a valid solution then the
graph's own labelling is a proper 9-colouring (so one exists); and a
Hint(v) cell's node is joined to exactly the clique nodes whose index
differs from v's - the converse direction of the original claim is false
and the missing clique-clique edges (see the C2 bug) mean this adjacency
does not force the cell's colour to equal v. -/
theorem valid_solution_gives_proper_colouring (g : SudokuGrid) (G : Graph)
    (hG : from_sudoku g = some G) :
    (is_valid_solution g → proper_colouring G G.label) ∧
    (∀ (x y : Fin 9) (v : Value), g.cells x y = Cell.Hint v → ∀ i < 9,
      ((9 * x.val + y.val, 81 + i) ∈ G.edges ↔ i ≠ v.to_index)) := by
  obtain ⟨hf, rfl⟩ := from_sudoku_eq_some hG
  constructor
  · intro hv
    exact (valid_iff_proper g hf).mp hv
  · intro x y v hcell i hi
    constructor
    · intro hmem
      simp only [mkGraph, List.mem_append] at hmem
      rcases hmem with ((h | h) | h) | h
      · have := base_edge_snd_lt_81 (Or.inl h)
        simp at this
      · have := base_edge_snd_lt_81 (Or.inr (Or.inl h))
        simp at this
      · have := base_edge_snd_lt_81 (Or.inr (Or.inr h))
        simp at this
      · obtain ⟨a, b, w, j, hc, hj, hnej, heq⟩ := mem_hintEdges.mp h
        rw [Prod.mk.injEq] at heq
        obtain ⟨h1, h2⟩ := heq
        have hxa : x = a := Fin.ext (by omega)
        have hyb : y = b := Fin.ext (by omega)
        have hij : i = j := by omega
        subst hxa hyb hij
        rw [hcell] at hc
        rw [Cell.Hint.injEq] at hc
        subst hc
        exact hnej
    · intro hne
      exact hintEdges_sub g (mem_hintEdges.mpr ⟨x, y, v, i, hcell, hi, hne,
        rfl⟩)

/-- Witness for the amended C1 at the fully hinted S1 grid. -/
theorem valid_solution_gives_proper_colouring_witness :
    (is_valid_solution gridS1Hints →
      proper_colouring (mkGraph gridS1Hints) (mkGraph gridS1Hints).label) ∧
    (∀ (x y : Fin 9) (v : Value), gridS1Hints.cells x y = Cell.Hint v →
      ∀ i < 9, ((9 * x.val + y.val, 81 + i) ∈ (mkGraph gridS1Hints).edges ↔
        i ≠ v.to_index)) :=
  valid_solution_gives_proper_colouring gridS1Hints (mkGraph gridS1Hints)
    (from_sudoku_of_full (by decide))

set_option maxRecDepth 100000 in
/-- C5 (refuted): the construction keeps parallel edges. At the fully
populated S1 grid the distinct edge ids 0 (the first row edge) and 648
(the first box edge) carry the same endpoint pair (0, 1). -/
theorem multi_edge_free_counterexample :
    from_sudoku gridS1 = some (mkGraph gridS1) ∧
    (mkGraph gridS1).edges[0]? = some (0, 1) ∧
    (mkGraph gridS1).edges[648]? = some (0, 1) ∧ (0 : Nat) ≠ 648 :=
  ⟨from_sudoku_of_full (by decide), by decide, by decide, by decide⟩

set_option maxRecDepth 100000 in
/-- C5 (amended): the graph of every fully populated grid is NOT
multi-edge-free - the row/column/box loops re-add the box-internal pairs
that share a row or column and petgraph's add_edge performs no
deduplication; for every such grid, edge ids 0 and 648 both join the
unordered pair of nodes 0 and 1. -/
theorem duplicate_edges_exist (g : SudokuGrid) (G : Graph)
    (hG : from_sudoku g = some G) :
    G.edges[0]? = some (0, 1) ∧ G.edges[648]? = some (0, 1) ∧
    (0 : Nat) ≠ 648 := by
  obtain ⟨hf, rfl⟩ := from_sudoku_eq_some hG
  have hE : (mkGraph g).edges =
      rowEdges ++ (colEdges ++ (boxEdges ++ hintEdges g)) := rfl
  refine ⟨?_, ?_, by omega⟩
  · rw [hE, List.getElem?_append_left (by decide)]
    decide
  · rw [hE, List.getElem?_append_right (by decide),
      show (648 : Nat) - rowEdges.length = 324 from by decide,
      List.getElem?_append_right (by decide),
      show (324 : Nat) - colEdges.length = 0 from by decide,
      List.getElem?_append_left (by decide)]
    decide

set_option maxRecDepth 100000 in
/-- Witness for the amended C5 at the S1 grid. -/
theorem duplicate_edges_exist_witness :
    (mkGraph gridS1).edges[0]? = some (0, 1) ∧
    (mkGraph gridS1).edges[648]? = some (0, 1) ∧ (0 : Nat) ≠ 648 :=
  duplicate_edges_exist gridS1 (mkGraph gridS1)
    (from_sudoku_of_full (by decide))

/-- C6: reveal returns Ok exactly when the recomputed digest of the
supplied key is byte-equal to the stored digest; the revealed commitment
carries the key and keeps the hash and node id; on mismatch the result is
the InvalidReveal error. -/
theorem reveal_iff_hash_matches (h : HashFn) (c : Commitment)
    (key : CommitmentKey) :
    ((∃ r, Commitment.reveal h c key = .ok r) ↔
      compute_hash h key.value key.nonce = c.hash) ∧
    (∀ r, Commitment.reveal h c key = .ok r →
      r.key = some key ∧ r.hash = c.hash ∧ r.node_id = c.node_id) ∧
    (compute_hash h key.value key.nonce ≠ c.hash →
      Commitment.reveal h c key = .error .InvalidReveal) := by
  unfold Commitment.reveal Commitment.verify_hash
  by_cases heq : compute_hash h key.value key.nonce = c.hash
  · rw [beq_iff_eq.mpr heq]
    refine ⟨⟨fun _ => heq, fun _ => ⟨_, rfl⟩⟩, fun r hr => ?_, fun hne =>
      absurd heq hne⟩
    cases hr
    exact ⟨rfl, rfl, rfl⟩
  · rw [beq_eq_false_iff_ne.mpr heq]
    refine ⟨⟨fun hex => ?_, fun hh => absurd hh heq⟩, fun r hr => ?_,
      fun _ => rfl⟩
    · obtain ⟨r, hr⟩ := hex
      cases hr
    · cases hr

/-- The identity digest function, used to instantiate the abstract hash in
witnesses. -/
def idHash : HashFn := fun l => l

/-- Witness for C6: with a concrete hash, revealing a fresh commitment with
its own key succeeds, and revealing with a wrong-value key is rejected. -/
theorem reveal_iff_hash_matches_witness :
    (∃ r, Commitment.reveal idHash
      (Commitment.new idHash Value.Five 7 [1, 2, 3]).1
      (Commitment.new idHash Value.Five 7 [1, 2, 3]).2 = .ok r) ∧
    Commitment.reveal idHash (Commitment.new idHash Value.Five 7 [1, 2, 3]).1
      { value := Value.Six, nonce := [1, 2, 3] } = .error .InvalidReveal :=
  ⟨(reveal_iff_hash_matches idHash _ _).1.mpr rfl,
   (reveal_iff_hash_matches idHash _ _).2.2 (by decide)⟩

/-- C7: verify_response rejects with RoundMismatch when the response's
round id differs from the current round or its edge differs from the stored
challenge edge, and rejects with NodeMismatch when the response's endpoint
pair is not exactly the edge map's (expected_node1, expected_node2) in that
order - in particular when the two endpoints are swapped. -/
theorem verify_response_rejections (h : HashFn) (v : Verifier)
    (resp : ProverResponse) :
    (resp.round_id ≠ v.current_round →
      Verifier.verify_response h v resp = (v, .error .RoundMismatch)) ∧
    (∀ round, resp.round_id = v.current_round →
      v.rounds.get? resp.round_id = some round →
      round.challenge_edge ≠ resp.edge →
      Verifier.verify_response h v resp = (v, .error .RoundMismatch)) ∧
    (∀ round a b, resp.round_id = v.current_round →
      v.rounds.get? resp.round_id = some round →
      round.challenge_edge = resp.edge →
      v.edge_map.get? resp.edge = some (a, b) →
      (resp.node1.node_idx, resp.node2.node_idx) ≠ (a, b) →
      Verifier.verify_response h v resp = (v, .error .NodeMismatch)) ∧
    (∀ round a b, resp.round_id = v.current_round →
      v.rounds.get? resp.round_id = some round →
      round.challenge_edge = resp.edge →
      v.edge_map.get? resp.edge = some (a, b) → a ≠ b →
      resp.node1.node_idx = b → resp.node2.node_idx = a →
      Verifier.verify_response h v resp = (v, .error .NodeMismatch)) := by
  refine ⟨fun h1 => ?_, fun round h1 h2 h3 => ?_,
    fun round a b h1 h2 h3 h4 h5 => ?_,
    fun round a b h1 h2 h3 h4 h5 h6 h7 => ?_⟩
  · unfold Verifier.verify_response
    rw [if_pos h1]
  · unfold Verifier.verify_response
    rw [if_neg (by simp [h1]), h2]
    dsimp only
    rw [if_pos h3]
  · unfold Verifier.verify_response
    rw [if_neg (by simp [h1]), h2]
    dsimp only
    rw [if_neg (by simp [h3]), h4]
    dsimp only
    rw [if_pos]
    by_cases ha : resp.node1.node_idx = a
    · right
      intro hb
      exact h5 (by rw [ha, hb])
    · exact Or.inl ha
  · unfold Verifier.verify_response
    rw [if_neg (by simp [h1]), h2]
    dsimp only
    rw [if_neg (by simp [h3]), h4]
    dsimp only
    rw [if_pos]
    left
    rw [h6]
    exact fun hh => h5 hh.symm

/-- A small concrete verifier state: one edge (id 0, endpoints (1, 2)) and
one open round challenging edge 0. -/
def verifierW : Verifier :=
  { edge_map := [(1, 2)]
    rounds := [{ commitment := { round_id := 0, commitments := fun _ => none }
                 challenge_edge := 0, response := none, verified := false }]
    current_round := 0 }

/-- Witness for C7: concrete rejections - wrong round id, wrong edge, and
swapped endpoints. -/
theorem verify_response_rejections_witness :
    Verifier.verify_response idHash verifierW
        { round_id := 5, edge := 0
          node1 := { node_idx := 1, node_key := ⟨Value.One, []⟩ }
          node2 := { node_idx := 2, node_key := ⟨Value.Two, []⟩ } } =
      (verifierW, .error .RoundMismatch) ∧
    Verifier.verify_response idHash verifierW
        { round_id := 0, edge := 3
          node1 := { node_idx := 1, node_key := ⟨Value.One, []⟩ }
          node2 := { node_idx := 2, node_key := ⟨Value.Two, []⟩ } } =
      (verifierW, .error .RoundMismatch) ∧
    Verifier.verify_response idHash verifierW
        { round_id := 0, edge := 0
          node1 := { node_idx := 2, node_key := ⟨Value.One, []⟩ }
          node2 := { node_idx := 1, node_key := ⟨Value.Two, []⟩ } } =
      (verifierW, .error .NodeMismatch) :=
  ⟨(verify_response_rejections idHash verifierW _).1 (by decide),
   (verify_response_rejections idHash verifierW _).2.1 _ rfl rfl (by decide),
   (verify_response_rejections idHash verifierW _).2.2.2 _ 1 2 rfl rfl rfl
     rfl (by decide) rfl rfl⟩

/-- C9: verification is atomic - whenever verify_response returns an error
the verifier state (its rounds list with each round's stored response and
verified flag, and current_round) is returned exactly as it was; only the
Ok path mutates the round. -/
theorem verify_response_error_preserves_state (h : HashFn) (v : Verifier)
    (resp : ProverResponse) :
    ∀ err, (Verifier.verify_response h v resp).2 = .error err →
      (Verifier.verify_response h v resp).1 = v := by
  have key : (∃ r, (Verifier.verify_response h v resp).2 = .ok r) ∨
      (Verifier.verify_response h v resp).1 = v := by
    unfold Verifier.verify_response
    repeat first
      | exact Or.inr rfl
      | exact Or.inl ⟨_, rfl⟩
      | split
  intro err he
  rcases key with ⟨r, hr⟩ | hs
  · rw [hr] at he
    cases he
  · exact hs

/-- Witness for C9: a concrete erroring call leaves the concrete verifier
untouched. -/
theorem verify_response_error_preserves_state_witness :
    (Verifier.verify_response idHash verifierW
        { round_id := 5, edge := 0
          node1 := { node_idx := 1, node_key := ⟨Value.One, []⟩ }
          node2 := { node_idx := 2, node_key := ⟨Value.Two, []⟩ } }).2 =
      .error .RoundMismatch ∧
    (Verifier.verify_response idHash verifierW
        { round_id := 5, edge := 0
          node1 := { node_idx := 1, node_key := ⟨Value.One, []⟩ }
          node2 := { node_idx := 2, node_key := ⟨Value.Two, []⟩ } }).1 =
      verifierW :=
  ⟨rfl, verify_response_error_preserves_state idHash verifierW _ _ rfl⟩

/-- C4: completeness. For a fully populated valid solution, a protocol
round succeeds whatever randomness is drawn: for every colour permutation
(injective map of the nine values), every choice of per-node nonces, and
every edge the verifier can challenge, the start_round /
receive_commitment / respond_to_challenge / verify_response sequence
returns Ok with success = true. The protocol state may be at any round
boundary (prover and verifier round lists of equal length). -/
theorem completeness (h : HashFn) (shuffle : Value → Value)
    (nonce : Nat → List Nat) (g : SudokuGrid) (G : Graph) (e : Nat)
    (z : ZKProtocol) (hG : from_sudoku g = some G)
    (hvalid : is_valid_solution g) (hinj : Function.Injective shuffle)
    (he : e < G.edges.length) (hg : z.prover.graph = G)
    (hsync : z.prover.rounds.length = z.verifier.rounds.length)
    (hem : z.verifier.edge_map = G.edges) :
    ∃ z', ZKProtocol.run_round h shuffle nonce e z =
      some (z', .ok { round_id := z.prover.rounds.length,
                      success := true }) := by
  obtain ⟨hf, hGm⟩ := from_sudoku_eq_some hG
  subst hGm
  obtain ⟨a, b, hab⟩ : ∃ a b, (mkGraph g).edges.get? e = some (a, b) := by
    refine ⟨((mkGraph g).edges.get ⟨e, he⟩).1,
      ((mkGraph g).edges.get ⟨e, he⟩).2, ?_⟩
    rw [List.get?_eq_get he]
  have hmemE : (a, b) ∈ (mkGraph g).edges := by
    have := List.get?_mem hab
    exact this
  have hlab : (mkGraph g).label a ≠ (mkGraph g).label b :=
    (valid_iff_proper g hf).mp hvalid _ hmemE
  obtain ⟨ha90, hb90⟩ := edge_endpoints_lt_90 g _ hmemE
  have ha90' : a < Graph.node_count := ha90
  have hb90' : b < Graph.node_count := hb90
  have hne : shuffle ((mkGraph g).label a) ≠
      shuffle ((mkGraph g).label b) := fun hh => hlab (hinj hh)
  have hdec : decide (shuffle ((mkGraph g).label a) ≠
      shuffle ((mkGraph g).label b)) = true := decide_eq_true hne
  have hEmp : (mkGraph g).edges.isEmpty = false := by
    rcases hEE : (mkGraph g).edges with _ | ⟨x, xs⟩
    · rw [hEE] at he
      simp at he
    · rfl
  have hpget : ∀ r : ProverRound,
      (z.prover.rounds ++ [r]).get? z.verifier.rounds.length = some r := by
    intro r
    rw [← hsync, List.get?_concat_length]
  have hvget : ∀ r : VerifierRound,
      (z.verifier.rounds ++ [r]).get? z.verifier.rounds.length = some r :=
    fun r => List.get?_concat_length _ _
  have hcont : ∀ x : Nat, ([] : List Nat).contains x = false := fun _ => rfl
  apply Exists.intro
  unfold ZKProtocol.run_round Verifier.receive_commitment
    Prover.start_round Prover.respond_to_challenge Verifier.verify_response
    Commitment.reveal Commitment.verify_hash Commitment.new compute_hash
    Commitment.key_unchecked
  simp only [hg, hem, hsync, hab, hEmp, ha90', hb90', hdec, hpget, hvget,
    hcont, beq_self_eq_true, ne_eq, not_true_eq_false, Bool.false_eq_true,
    if_false, ite_false, if_true, ite_true, not_false_eq_true,
    Option.getD_some, decide_not]
  rfl

/-- A freshly initialised protocol for the S1 grid (what ZKProtocol::new
produces). -/
def protocolS1 : ZKProtocol :=
  { prover := { graph := mkGraph gridS1, rounds := [], current_round := 0 }
    verifier := Verifier.new (mkGraph gridS1).edges }

set_option maxRecDepth 100000 in
/-- Witness for C4: the first round of the S1 protocol, with the identity
permutation, all-empty nonces and challenge edge 0, succeeds. -/
theorem completeness_witness :
    ∃ z', ZKProtocol.run_round idHash id (fun _ => []) 0 protocolS1 =
      some (z', .ok { round_id := 0, success := true }) :=
  completeness idHash id (fun _ => []) gridS1 (mkGraph gridS1) 0 protocolS1
    (from_sudoku_of_full (by decide)) (by decide) Function.injective_id
    (by decide) rfl rfl rfl

/-- C8 (refuted at edge count 1): with a single edge the catch probability
is 1, the logarithm of 1 - 1/|E| = 0 degenerates, and the code returns 0
rounds, violating both the claimed bound and N >= 1. -/
theorem rounds_needed_edge_count_one :
    calculate_rounds_needed 1 50 = 0 ∧
    ¬ (1 - (1 - 1 / ((1 : Nat) : ℝ)) ^ calculate_rounds_needed 1 50 ≥
      50 / 100) := by
  have h0 : calculate_rounds_needed 1 50 = 0 := by
    unfold calculate_rounds_needed
    norm_num [Real.log_zero]
  refine ⟨h0, ?_⟩
  rw [h0]
  norm_num

/-- C8 (amended): for every edge count |E| >= 2 and confidence
0 < c < 100, the returned round count is the ceiling formula, it satisfies
the detection bound 1 - (1 - 1/|E|)^N >= c/100, and it is at least 1 (f64
arithmetic modelled over the reals). -/
theorem rounds_needed_spec (E : Nat) (c : ℝ) (hE : 2 ≤ E) (hc0 : 0 < c)
    (hc1 : c < 100) :
    calculate_rounds_needed E c =
      Nat.ceil (Real.log (1 - c / 100) / Real.log (1 - 1 / (E : ℝ))) ∧
    1 - (1 - 1 / (E : ℝ)) ^ calculate_rounds_needed E c ≥ c / 100 ∧
    1 ≤ calculate_rounds_needed E c := by
  have hE1 : (2 : ℝ) ≤ (E : ℝ) := by exact_mod_cast hE
  have hEpos : (0 : ℝ) < (E : ℝ) := by linarith
  have hinv : 1 / (E : ℝ) ≤ 1 / 2 := by
    apply one_div_le_one_div_of_le
    · norm_num
    · exact hE1
  have hinvpos : 0 < 1 / (E : ℝ) := by positivity
  have ha0 : (0 : ℝ) < 1 - 1 / (E : ℝ) := by linarith
  have ha1 : 1 - 1 / (E : ℝ) < 1 := by linarith
  have ht0 : (0 : ℝ) < 1 - c / 100 := by linarith
  have ht1 : 1 - c / 100 < 1 := by linarith
  have hloga : Real.log (1 - 1 / (E : ℝ)) < 0 := Real.log_neg ha0 ha1
  have hlogt : Real.log (1 - c / 100) < 0 := Real.log_neg ht0 ht1
  have hLpos : 0 < Real.log (1 - c / 100) / Real.log (1 - 1 / (E : ℝ)) :=
    div_pos_of_neg_of_neg hlogt hloga
  refine ⟨rfl, ?_, ?_⟩
  · have hNL : Real.log (1 - c / 100) / Real.log (1 - 1 / (E : ℝ)) ≤
        (calculate_rounds_needed E c : ℝ) := Nat.le_ceil _
    have hmul : (calculate_rounds_needed E c : ℝ) *
        Real.log (1 - 1 / (E : ℝ)) ≤ Real.log (1 - c / 100) := by
      have h2 := mul_le_mul_of_nonpos_right hNL (le_of_lt hloga)
      rw [div_mul_cancel₀ _ (ne_of_lt hloga)] at h2
      exact h2
    have hpow : (1 - 1 / (E : ℝ)) ^ calculate_rounds_needed E c ≤
        1 - c / 100 := by
      have h1 : Real.log ((1 - 1 / (E : ℝ)) ^ calculate_rounds_needed E c) ≤
          Real.log (1 - c / 100) := by
        rw [Real.log_pow]
        exact hmul
      calc (1 - 1 / (E : ℝ)) ^ calculate_rounds_needed E c
          = Real.exp (Real.log ((1 - 1 / (E : ℝ)) ^
              calculate_rounds_needed E c)) :=
            (Real.exp_log (pow_pos ha0 _)).symm
        _ ≤ Real.exp (Real.log (1 - c / 100)) := Real.exp_le_exp.mpr h1
        _ = 1 - c / 100 := Real.exp_log ht0
    linarith [hpow]
  · exact Nat.ceil_pos.mpr hLpos

/-- Witness for the amended C8 at |E| = 2, c = 50. -/
theorem rounds_needed_spec_witness :
    1 - (1 - 1 / ((2 : Nat) : ℝ)) ^ calculate_rounds_needed 2 50 ≥
      50 / 100 ∧ 1 ≤ calculate_rounds_needed 2 50 :=
  ⟨(rounds_needed_spec 2 50 (le_refl 2) (by norm_num) (by norm_num)).2.1,
   (rounds_needed_spec 2 50 (le_refl 2) (by norm_num) (by norm_num)).2.2⟩

end ZkSudoku
